import Mathlib

/-
Verification of the browser-driven application-form core of the AI_Bot
repository (src/application/job_applier.py and src/utils/human_behavior.py).

The Python code drives a live Selenium session; the embedding models the
page/DOM environment abstractly (as data supplied per step) and translates
the control flow of the Python functions faithfully:
  * `human_like_typing`  embeds HumanBehavior.human_like_typing;
  * `scroll_page`        embeds HumanBehavior.scroll_page;
  * `runCount`/`handleForm` embed JobApplier._handle_linkedin_application_form;
  * `applyLinkedIn`      embeds JobApplier._apply_linkedin;
  * `applyJob`           embeds JobApplier.apply;
  * `classifyTextInput`  embeds the text-input branch of
    JobApplier._fill_linkedin_additional_questions.
Randomness (`random.randint`, `random.random`) is modelled by explicit
entropy arguments; `random.randint(lo, hi)` becomes `randint lo hi r`,
which maps arbitrary entropy `r` into the inclusive range `[lo, hi]`.
-/

namespace AIBot

/-- Boolean test that `p` is a prefix of `s` (on character lists). -/
def isPrefixOfB : List Char → List Char → Bool
  | [], _ => true
  | _ :: _, [] => false
  | c :: cs, d :: ds => c = d && isPrefixOfB cs ds

/-- Boolean substring containment on character lists: Python's `pat in s`. -/
def containsSubList : List Char → List Char → Bool
  | [], pat => pat.isEmpty
  | s@(_ :: rest), pat => isPrefixOfB pat s || containsSubList rest pat

/-- Python's `pat in s.lower()` on strings: `lower()` lowercases the text
character by character before the containment test. -/
def strContainsLower (s pat : String) : Bool :=
  containsSubList (s.toList.map Char.toLower) pat.toList

/-- Model of Python's `random.randint(lo, hi)` (inclusive bounds): arbitrary
entropy `r` is mapped into `[lo, hi]`. -/
def randint (lo hi r : Nat) : Nat :=
  lo + r % (hi + 1 - lo)

theorem randint_ge (lo hi r : Nat) : lo ≤ randint lo hi r := by
  simp [randint]

theorem randint_le (lo hi r : Nat) (h : lo ≤ hi) : randint lo hi r ≤ hi := by
  have hpos : 0 < hi + 1 - lo := by omega
  have := Nat.mod_lt r hpos
  simp only [randint]
  omega

/-! ### Timing/Interaction Simulator: typing (HumanBehavior.human_like_typing) -/

/-- Selenium exceptions relevant to the simulator.  `notInteractable` is
`ElementNotInteractableException`, `stale` is `StaleElementReferenceException`;
`other` covers every exception type outside the `except` clause of
`human_like_typing`. -/
inductive PyErr
  | notInteractable
  | stale
  | other (msg : String)
deriving DecidableEq

/-- Observable behaviour of one WebElement at each call site of
`human_like_typing`: whether `element.click()` (focus), the per-character
`element.send_keys`, the fallback `element.clear()` and the fallback
`element.send_keys(text)` raise, and which exception.  The element is an
external Selenium collaborator, so each operation may raise. -/
structure FieldBehavior where
  clickErr : Option PyErr
  charErr : Option PyErr
  clearErr : Option PyErr
  setErr : Option PyErr
deriving DecidableEq

/-- Entropy for the typing loop: whether a typo is made before the i-th
character (`random.random() < mistake_probability`), and the entropy of the
wrong-character offset `random.randint(1, 5)`. -/
structure TypingRng where
  mistakeAt : Nat → Bool
  offsetAt : Nat → Nat

/-- Wrong adjacent character: `chr(ord(char) + random.randint(1, 5))`. -/
def wrongChar (c : Char) (r : Nat) : Char :=
  Char.ofNat (c.toNat + randint 1 5 r)

/-- Field value produced by the per-character typing loop: each iteration
optionally types a wrong character, deletes it with BACKSPACE (drop the last
character of the field value), then types the correct character. -/
def typedValue (rng : TypingRng) : Nat → List Char → List Char → List Char
  | _, acc, [] => acc
  | i, acc, c :: rest =>
      let acc1 :=
        if rng.mistakeAt i then
          (acc ++ [wrongChar c (rng.offsetAt i)]).dropLast ++ [c]
        else acc ++ [c]
      typedValue rng (i + 1) acc1 rest

/-- First exception raised on the focused typing path: `element.click()` is
called first; if it succeeds, `element.send_keys` runs once per keypress
(so only when `text` is nonempty). -/
def firstTypedErr (b : FieldBehavior) (text : List Char) : Option PyErr :=
  match b.clickErr with
  | some e => some e
  | none =>
      match text with
      | [] => none
      | _ :: _ => b.charErr

/-- Embedding of `HumanBehavior.human_like_typing(element, text, ...)`.
Returns `Except.ok (finalValue, warningLogged)`: the focused path types the
text character by character (typos corrected); `ElementNotInteractableException`
and `StaleElementReferenceException` are caught, a warning is logged, and the
fallback runs `element.clear()` then `element.send_keys(text)` — both outside
any `try`, so an exception from either propagates.  Any other exception
propagates uncaught. -/
def human_like_typing (b : FieldBehavior) (rng : TypingRng) (text : List Char) :
    Except PyErr (List Char × Bool) :=
  match firstTypedErr b text with
  | none => Except.ok (typedValue rng 0 [] text, false)
  | some PyErr.notInteractable =>
      match b.clearErr with
      | some e2 => Except.error e2
      | none =>
          match b.setErr with
          | some e2 => Except.error e2
          | none => Except.ok (text, true)
  | some PyErr.stale =>
      match b.clearErr with
      | some e2 => Except.error e2
      | none =>
          match b.setErr with
          | some e2 => Except.error e2
          | none => Except.ok (text, true)
  | some (PyErr.other m) => Except.error (PyErr.other m)

/-! ### Timing/Interaction Simulator: scrolling (HumanBehavior.scroll_page) -/

/-- Scroll direction argument of `scroll_page`. -/
inductive ScrollDir
  | up
  | down
deriving DecidableEq

/-- Sub-scroll magnitudes of the `while abs(remaining) > 0` loop of
`scroll_page`: each step scrolls `min(abs(remaining), random.randint(50, 200))`
pixels.  The loop is embedded with a structural fuel counter equal to the
initial remaining amount; since each step is at least 1 pixel the fuel is
never exhausted before `remaining` reaches 0, so the embedding computes the
exact step sequence of the source loop. -/
def subScrollsAux (rng : Nat → Nat) : Nat → Nat → Nat → List Nat
  | 0, _, _ => []
  | fuel + 1, i, remaining =>
      if remaining = 0 then []
      else
        let step := min remaining (randint 50 200 (rng i))
        step :: subScrollsAux rng fuel (i + 1) (remaining - step)

/-- Sub-scroll magnitudes for a requested total of `amount` pixels. -/
def subScrolls (rng : Nat → Nat) (amount : Nat) : List Nat :=
  subScrollsAux rng amount 0 amount

/-- Total scroll amount: the explicit `amount` argument, or
`random.randint(100, 800)` when the caller passed `None`. -/
def scrollAmount (amtR : Nat) (amount : Option Nat) : Nat :=
  match amount with
  | some a => a
  | none => randint 100 800 amtR

/-- Signed pixel delta of one sub-scroll: negative for direction "up". -/
def signDelta (dir : ScrollDir) (s : Nat) : Int :=
  match dir with
  | ScrollDir.up => -(Int.ofNat s)
  | ScrollDir.down => Int.ofNat s

/-- Embedding of `HumanBehavior.scroll_page(driver, direction, amount)`:
the list of signed pixel deltas passed to `window.scrollBy`.  The source
negates `amount` for direction "up" and loops on `abs(remaining)`, which for
integer amounts is the same as computing the magnitudes of the positive case
and negating each delta. -/
def scroll_page (rng : Nat → Nat) (amtR : Nat) (dir : ScrollDir)
    (amount : Option Nat) : List Int :=
  (subScrolls rng (scrollAmount amtR amount)).map (signDelta dir)

/-! ### Form Navigator (JobApplier._handle_linkedin_application_form) -/

/-- Observable interactions of one iteration of the stepping loop, in the
order the source performs them.  `stepStart n` mirrors the
`Handling application step n` log line; `readPage` is the
`read_page_behavior` call; the upload/fill events are the field-filling
phase; the `click*` events are `human_like_click` calls on the primary
action control found. -/
inductive Event
  | stepStart (n : Nat)
  | readPage
  | uploadResume
  | uploadCoverLetter
  | fillContactInfo
  | fillAdditionalQuestions
  | clickNext
  | clickReview
  | clickSubmit
  | clickOther (text : String)
deriving DecidableEq

/-- Field-filling events (operations of the Field Classifier phase). -/
def isFillEvent : Event → Bool
  | Event.uploadResume => true
  | Event.uploadCoverLetter => true
  | Event.fillContactInfo => true
  | Event.fillAdditionalQuestions => true
  | _ => false

/-- Action-control click events. -/
def isClickEvent : Event → Bool
  | Event.clickNext => true
  | Event.clickReview => true
  | Event.clickSubmit => true
  | Event.clickOther _ => true
  | _ => false

/-- Page state the session presents to one iteration of the stepping loop:
which selectors resolve (`find_element` succeeds), whether the
`div.artdeco-inline-feedback--success` confirmation appears within the
post-submit wait, and the visible texts of all `button` elements scanned by
the fallback search. -/
structure PageStep where
  hasResumeUpload : Bool
  hasCoverLetterUpload : Bool
  hasNextButton : Bool
  hasReviewButton : Bool
  hasSubmitButton : Bool
  confirmationAppears : Bool
  buttons : List String
deriving DecidableEq

/-- Vocabulary test of the fallback button search:
`"next" in t or "continue" in t or "submit" in t or "apply" in t`
on the lowercased visible text. -/
def vocabMatch (t : String) : Bool :=
  strContainsLower t "next" || strContainsLower t "continue" ||
    strContainsLower t "submit" || strContainsLower t "apply"

/-- Primary action control found in one iteration, in the source's fixed
search order: the Next selector, then the Review selector, then the Submit
selector, then the first `button` whose visible text matches the vocabulary;
`nothing` when every search fails. -/
inductive ActionFound
  | next
  | review
  | submit
  | fallback (t : String)
  | nothing
deriving DecidableEq

/-- Action-control search of one loop iteration (source order). -/
def findAction (p : PageStep) : ActionFound :=
  if p.hasNextButton then ActionFound.next
  else if p.hasReviewButton then ActionFound.review
  else if p.hasSubmitButton then ActionFound.submit
  else
    match p.buttons.find? vocabMatch with
    | some t => ActionFound.fallback t
    | none => ActionFound.nothing

/-- Field-filling events of one iteration: resume upload when the resume
file input is present, cover-letter upload when a cover-letter path was given
and the input is present, then `_fill_linkedin_contact_info` and
`_fill_linkedin_additional_questions` (always called). -/
def fillEvents (p : PageStep) (cl : Bool) : List Event :=
  (if p.hasResumeUpload then [Event.uploadResume] else []) ++
    (if cl && p.hasCoverLetterUpload then [Event.uploadCoverLetter] else []) ++
    [Event.fillContactInfo, Event.fillAdditionalQuestions]

/-- Click event emitted for the action control found (one click at most). -/
def actionEvents (p : PageStep) : List Event :=
  match findAction p with
  | ActionFound.next => [Event.clickNext]
  | ActionFound.review => [Event.clickReview]
  | ActionFound.submit => [Event.clickSubmit]
  | ActionFound.fallback t => [Event.clickOther t]
  | ActionFound.nothing => []

/-- Full event trace of one loop iteration at step counter `s`: the step log,
the reading simulation, the field-filling phase, then the action click. -/
def iterTrace (s : Nat) (cl : Bool) (p : PageStep) : List Event :=
  Event.stepStart s :: Event.readPage :: (fillEvents p cl ++ actionEvents p)

/-- Terminal result of the form handler, one constructor per return site:
`confirmed` is `return True` after the success indicator appeared,
`unconfirmed` is `return True` after the confirmation wait timed out,
`abandonedMaxSteps` is `return False` after the loop exhausted `max_steps`
(the spec's `Abandoned("max steps exceeded")`). -/
inductive FormOutcome
  | confirmed
  | unconfirmed
  | abandonedMaxSteps
deriving DecidableEq

/-- Boolean the handler returns to `_apply_linkedin` for each outcome. -/
def outcomeToBool : FormOutcome → Bool
  | FormOutcome.confirmed => true
  | FormOutcome.unconfirmed => true
  | FormOutcome.abandonedMaxSteps => false

/-- The `max_steps = 10` bound of the stepping loop. -/
def maxSteps : Nat := 10

/-- Embedding of the `while current_step <= max_steps` loop.  `fuel` is the
number of loop-guard successes still available, kept equal to
`max_steps + 1 - s` at every call (the loop body runs exactly for step
counters `s = 1..max_steps`): the guard fails when fuel reaches 0.  Every
iteration either returns a submit outcome or increments the step counter —
Next, Review, a fallback vocabulary click, and the no-button case all
increment `current_step` and continue. -/
def runCount (env : Nat → PageStep) (cl : Bool) : Nat → Nat → FormOutcome × List Event
  | _, 0 => (FormOutcome.abandonedMaxSteps, [])
  | s, fuel + 1 =>
      let p := env s
      if findAction p = ActionFound.submit then
        ((if p.confirmationAppears then FormOutcome.confirmed else FormOutcome.unconfirmed),
          iterTrace s cl p)
      else
        let r := runCount env cl (s + 1) fuel
        (r.1, iterTrace s cl p ++ r.2)

/-- Embedding of `_handle_linkedin_application_form`: the stepping loop from
`current_step = 1`, over the sequence of page states `env` the session
presents (the page presented to iteration `s` is `env s`). -/
def handleForm (env : Nat → PageStep) (cl : Bool) : FormOutcome × List Event :=
  runCount env cl 1 maxSteps

/-- Step counters logged along a trace. -/
def stepNums (trace : List Event) : List Nat :=
  trace.filterMap fun e =>
    match e with
    | Event.stepStart n => some n
    | _ => none

/-- Concatenated per-iteration traces for a list of step counters. -/
def blockTrace (env : Nat → PageStep) (cl : Bool) : List Nat → List Event
  | [] => []
  | s :: rest => iterTrace s cl (env s) ++ blockTrace env cl rest

/-! ### JobApplier._apply_linkedin -/

/-- Observable interactions of `_apply_linkedin`: login, navigation to the
job URL, reading the job description, the Easy-Apply / alternative apply
click, then the form handler's events. -/
inductive LEvent
  | login
  | navigateToJob
  | readJobDescription
  | clickEasyApply
  | clickAltApply
  | form (e : Event)
deriving DecidableEq

/-- Events of the form handler (field classification and form filling run
only inside these). -/
def isFormEvent : LEvent → Bool
  | LEvent.form _ => true
  | _ => false

/-- Page environment `_apply_linkedin` sees: whether the "already applied"
control is present on the job page, whether the Easy Apply selector (or the
alternative apply selector) resolves, and the form pages behind the apply
click. -/
structure LinkedInEnv where
  appliedButtonPresent : Bool
  easyApplyPresent : Bool
  altApplyPresent : Bool
  pages : Nat → PageStep

/-- Return sites of `_apply_linkedin`: `alreadyApplied` is the
`return True` after the Applied control was found, `formResult` is the
result of `_handle_linkedin_application_form`, `noApplyButton` is the
`return False` when neither apply selector resolves. -/
inductive LinkedInOutcome
  | alreadyApplied
  | formResult (o : FormOutcome)
  | noApplyButton
deriving DecidableEq

/-- Boolean `_apply_linkedin` returns for each outcome. -/
def linkedinToBool : LinkedInOutcome → Bool
  | LinkedInOutcome.alreadyApplied => true
  | LinkedInOutcome.formResult o => outcomeToBool o
  | LinkedInOutcome.noApplyButton => false

/-- Embedding of `_apply_linkedin(driver, job, resume_path, cover_letter_path)`:
log in, navigate to the job URL, simulate reading, then check the Applied
control; if present return immediately, otherwise click whichever apply
button resolves and run the form handler. -/
def applyLinkedIn (env : LinkedInEnv) (cl : Bool) : LinkedInOutcome × List LEvent :=
  let pre := [LEvent.login, LEvent.navigateToJob, LEvent.readJobDescription]
  if env.appliedButtonPresent then (LinkedInOutcome.alreadyApplied, pre)
  else if env.easyApplyPresent then
    let r := handleForm env.pages cl
    (LinkedInOutcome.formResult r.1, pre ++ LEvent.clickEasyApply :: r.2.map LEvent.form)
  else if env.altApplyPresent then
    let r := handleForm env.pages cl
    (LinkedInOutcome.formResult r.1, pre ++ LEvent.clickAltApply :: r.2.map LEvent.form)
  else (LinkedInOutcome.noApplyButton, pre)

/-! ### Application Orchestrator (JobApplier.apply) -/

/-- Observable steps of `apply`: driver creation, the site-specific
application call's events, the caught-exception log, the record/follow-up/
direct-email side effects, and the `finally` block (final random delay, then
`driver.quit()`). -/
inductive AEvent
  | setupDriver
  | siteEvent (e : LEvent)
  | exceptionCaught
  | unsupportedSource
  | recordApplication
  | scheduleFollowUp
  | sendDirectEmail
  | finalDelay
  | quitDriver
deriving DecidableEq

/-- Site-application events (browser/form interaction happens only here). -/
def isSiteEvent : AEvent → Bool
  | AEvent.siteEvent _ => true
  | _ => false

/-- Observable behaviour of the `_apply_linkedin` call inside `apply`'s
`try` block: the events it emits, then either a returned boolean or a raised
exception (which `apply` must handle). -/
structure SiteBehavior where
  events : List LEvent
  result : Except PyErr Bool

/-- Fields of the job dictionary that `apply` reads. -/
structure Job where
  url : String
  source : String
  sponsorsH1b : Bool
  hiringManagerEmail : String
deriving DecidableEq

/-- File-existence facts `apply` checks before opening the browser:
`resume_path` truthy and on disk, and whether a cover-letter path was given
and exists (a given-but-missing path is reset to `None` with a warning). -/
structure ApplyArgs where
  resumePathGiven : Bool
  resumeFileExists : Bool
  coverLetterGiven : Bool
  coverLetterFileExists : Bool
deriving DecidableEq

/-- Configuration `apply` reads: `APPLICATION.follow_up_days`. -/
structure ApplyConfig where
  followUpDays : Nat
deriving DecidableEq

/-- Effective cover-letter availability after the existence check. -/
def effectiveCoverLetter (args : ApplyArgs) : Bool :=
  args.coverLetterGiven && args.coverLetterFileExists

/-- Embedding of `JobApplier.apply(job, resume_path, cover_letter_path)`.
Precondition failures (missing resume, missing URL, no H1B sponsorship)
return `False` before any driver is created.  Otherwise the driver is set
up and the `try/except/finally` runs: the LinkedIn branch calls
`_apply_linkedin` (behaviour `siteB`), the Indeed and ZipRecruiter branches
are stubs that return `True` without touching the page, an unsupported
source returns `False` from inside the `try`; any exception from the site
call is caught and converted to `success = False`; on success the
application is recorded, a follow-up is scheduled when configured, and a
direct email is sent when a hiring-manager email and cover letter exist;
the `finally` block always runs a final random delay and `driver.quit()`. -/
def applyJob (cfg : ApplyConfig) (args : ApplyArgs) (job : Job)
    (siteB : SiteBehavior) : Bool × List AEvent :=
  if !args.resumePathGiven || !args.resumeFileExists then (false, [])
  else if job.url = "" then (false, [])
  else if !job.sponsorsH1b then (false, [])
  else
    let effCL := effectiveCoverLetter args
    let body : Bool × List AEvent :=
      if job.source = "LinkedIn" then
        match siteB.result with
        | Except.ok b => (b, siteB.events.map AEvent.siteEvent)
        | Except.error _ =>
            (false, siteB.events.map AEvent.siteEvent ++ [AEvent.exceptionCaught])
      else if job.source = "Indeed" then (true, [])
      else if job.source = "ZipRecruiter" then (true, [])
      else (false, [AEvent.unsupportedSource])
    let postEvs : List AEvent :=
      if body.1 then
        AEvent.recordApplication ::
          ((if 0 < cfg.followUpDays then [AEvent.scheduleFollowUp] else []) ++
            (if job.hiringManagerEmail = "" then []
             else if effCL then [AEvent.sendDirectEmail] else []))
      else []
    (body.1,
      AEvent.setupDriver :: (body.2 ++ postEvs ++ [AEvent.finalDelay, AEvent.quitDriver]))

/-- Preconditions under which `apply` opens a browser session: resume path
given and on disk, job URL nonempty, H1B sponsorship flag set. -/
def applyPreconds (args : ApplyArgs) (job : Job) : Prop :=
  args.resumePathGiven = true ∧ args.resumeFileExists = true ∧
    job.url ≠ "" ∧ job.sponsorsH1b = true

/-! ### Field Classifier: text inputs
(JobApplier._fill_linkedin_additional_questions) -/

/-- Profile fields `USER_INFO` used by the text-input branch. -/
structure UserInfo where
  portfolio : String
  linkedinUrl : String
  github : String
deriving DecidableEq

/-- Value typed into one additional-question text input, one constructor per
branch of the source's if/elif chain; `skip` is the fall-through (nothing
typed). -/
inductive TextFillDecision
  | years (n : Nat)
  | salary (n : Int)
  | website (s : String)
  | linkedinUrl (s : String)
  | github (s : String)
  | skip
deriving DecidableEq

/-- Model of `random.randint(-5000, 5000)` for the salary perturbation. -/
def salaryVariation (r : Nat) : Int :=
  (r % 10001 : Nat) - 5000

/-- Embedding of the text-input branch of
`_fill_linkedin_additional_questions`: the if/elif chain over the field's
lowercased placeholder and label.  Years/experience fields get
`str(random.randint(2, 5))`; salary fields get `90000` plus a random
perturbation in `[-5000, 5000]`; website/LinkedIn/GitHub fields get the
profile links; anything else is left untouched. -/
def classifyTextInput (ui : UserInfo) (r : Nat) (placeholder label : String) :
    TextFillDecision :=
  if strContainsLower placeholder "years" || strContainsLower label "years" ||
      strContainsLower placeholder "experience" || strContainsLower label "experience" then
    TextFillDecision.years (randint 2 5 r)
  else if strContainsLower placeholder "salary" || strContainsLower label "salary" then
    TextFillDecision.salary (90000 + salaryVariation r)
  else if strContainsLower placeholder "website" || strContainsLower label "website" ||
      strContainsLower placeholder "portfolio" || strContainsLower label "portfolio" then
    TextFillDecision.website ui.portfolio
  else if strContainsLower placeholder "linkedin" || strContainsLower label "linkedin" then
    TextFillDecision.linkedinUrl ui.linkedinUrl
  else if strContainsLower placeholder "github" || strContainsLower label "github" then
    TextFillDecision.github ui.github
  else TextFillDecision.skip

/-! ### Structural lemmas about the stepping loop -/

theorem stepNums_append (a b : List Event) :
    stepNums (a ++ b) = stepNums a ++ stepNums b := by
  simp [stepNums, List.filterMap_append]

theorem stepNums_fillEvents (p : PageStep) (cl : Bool) :
    stepNums (fillEvents p cl) = [] := by
  unfold fillEvents
  cases hr : p.hasResumeUpload <;> cases hc : (cl && p.hasCoverLetterUpload) <;>
    simp only [hr, hc, Bool.false_eq_true, if_true, if_false] <;> rfl

theorem stepNums_actionEvents (p : PageStep) :
    stepNums (actionEvents p) = [] := by
  unfold actionEvents
  cases hfa : findAction p <;> rfl

theorem stepNums_iterTrace (s : Nat) (cl : Bool) (p : PageStep) :
    stepNums (iterTrace s cl p) = [s] := by
  show stepNums ([Event.stepStart s, Event.readPage] ++ (fillEvents p cl ++ actionEvents p)) = [s]
  rw [stepNums_append, stepNums_append, stepNums_fillEvents, stepNums_actionEvents]
  rfl

theorem stepNums_blockTrace (env : Nat → PageStep) (cl : Bool) (l : List Nat) :
    stepNums (blockTrace env cl l) = l := by
  induction l with
  | nil => rfl
  | cons s rest ih => rw [blockTrace, stepNums_append, stepNums_iterTrace, ih]; rfl

theorem clickSubmit_not_mem_fillEvents (p : PageStep) (cl : Bool) :
    Event.clickSubmit ∉ fillEvents p cl := by
  unfold fillEvents
  cases hr : p.hasResumeUpload <;> cases hc : (cl && p.hasCoverLetterUpload) <;>
    simp [hr, hc]

theorem clickSubmit_mem_actionEvents (p : PageStep)
    (h : Event.clickSubmit ∈ actionEvents p) :
    findAction p = ActionFound.submit := by
  unfold actionEvents at h
  revert h
  cases hfa : findAction p <;> intro h
  · simp at h
  · simp at h
  · exact hfa ▸ rfl
  · simp at h
  · simp at h

theorem clickSubmit_mem_iterTrace (s : Nat) (cl : Bool) (p : PageStep) :
    Event.clickSubmit ∈ iterTrace s cl p ↔ findAction p = ActionFound.submit := by
  constructor
  · intro h
    unfold iterTrace at h
    cases h with
    | tail _ h =>
      cases h with
      | tail _ h =>
        rcases List.mem_append.mp h with h | h
        · exact absurd h (clickSubmit_not_mem_fillEvents p cl)
        · exact clickSubmit_mem_actionEvents p h
  · intro h
    simp [iterTrace, actionEvents, h]

theorem runCount_trace (env : Nat → PageStep) (cl : Bool) :
    ∀ fuel s, ∃ k, k ≤ fuel ∧
      (runCount env cl s fuel).2 = blockTrace env cl (List.range' s k) ∧
      (Event.clickSubmit ∉ (runCount env cl s fuel).2 →
        (runCount env cl s fuel).1 = FormOutcome.abandonedMaxSteps ∧ k = fuel) := by
  intro fuel
  induction fuel with
  | zero =>
      intro s
      exact ⟨0, Nat.le_refl 0, rfl, fun _ => ⟨rfl, rfl⟩⟩
  | succ fuel ih =>
      intro s
      by_cases hfa : findAction (env s) = ActionFound.submit
      · refine ⟨1, by omega, ?_, ?_⟩
        · simp [runCount, hfa, blockTrace, List.range']
        · intro hns
          exfalso
          apply hns
          have hmem : Event.clickSubmit ∈ iterTrace s cl (env s) :=
            (clickSubmit_mem_iterTrace s cl (env s)).mpr hfa
          simpa [runCount, hfa] using hmem
      · obtain ⟨k, hk, htr, himp⟩ := ih (s + 1)
        refine ⟨k + 1, by omega, ?_, ?_⟩
        · simp [runCount, hfa, blockTrace, List.range', htr]
        · intro hns
          have hns2 : Event.clickSubmit ∉ (runCount env cl (s + 1) fuel).2 := by
            intro hmem
            apply hns
            simp [runCount, hfa]
            exact Or.inr hmem
          obtain ⟨ho, hk2⟩ := himp hns2
          refine ⟨by simp [runCount, hfa, ho], by omega⟩

theorem runCount_submitLoc (env : Nat → PageStep) (cl : Bool) :
    ∀ fuel s, Event.clickSubmit ∈ (runCount env cl s fuel).2 →
      ∃ j, s ≤ j ∧ j < s + fuel ∧ findAction (env j) = ActionFound.submit ∧
        (runCount env cl s fuel).1 =
          (if (env j).confirmationAppears then FormOutcome.confirmed
           else FormOutcome.unconfirmed) := by
  intro fuel
  induction fuel with
  | zero =>
      intro s h
      simp [runCount] at h
  | succ fuel ih =>
      intro s h
      by_cases hfa : findAction (env s) = ActionFound.submit
      · exact ⟨s, Nat.le_refl s, by omega, hfa, by simp [runCount, hfa]⟩
      · have hmem : Event.clickSubmit ∈ (runCount env cl (s + 1) fuel).2 := by
          simp only [runCount, hfa, if_neg] at h
          rcases List.mem_append.mp (by simpa [hfa] using h) with h1 | h2
          · exact absurd ((clickSubmit_mem_iterTrace s cl (env s)).mp h1) hfa
          · exact h2
        obtain ⟨j, hj1, hj2, hj3, hj4⟩ := ih (s + 1) hmem
        exact ⟨j, by omega, by omega, hj3, by simpa [runCount, hfa] using hj4⟩

theorem mem_fillEvents_isFill (p : PageStep) (cl : Bool) :
    ∀ e ∈ fillEvents p cl, isFillEvent e = true := by
  unfold fillEvents
  cases hr : p.hasResumeUpload <;> cases hc : (cl && p.hasCoverLetterUpload) <;>
    simp [hr, hc] <;> decide

theorem mem_actionEvents_isClick (p : PageStep) :
    ∀ e ∈ actionEvents p, isClickEvent e = true := by
  unfold actionEvents
  cases hfa : findAction p <;> intro e he <;> simp at he <;> subst he <;> rfl

theorem find?_eq_some_split {α : Type} (p : α → Bool) :
    ∀ (l : List α) (a : α), l.find? p = some a →
      p a = true ∧ ∃ pre post, l = pre ++ a :: post ∧ ∀ u ∈ pre, p u = false := by
  intro l
  induction l with
  | nil =>
      intro a h
      simp [List.find?] at h
  | cons b rest ih =>
      intro a h
      by_cases hb : p b
      · rw [List.find?_cons_of_pos _ hb] at h
        obtain rfl : b = a := by injection h
        exact ⟨hb, [], rest, rfl, by intro u hu; exact absurd hu (List.not_mem_nil u)⟩
      · rw [List.find?_cons_of_neg _ (by simpa using hb)] at h
        obtain ⟨hpa, pre, post, heq, hpre⟩ := ih a h
        refine ⟨hpa, b :: pre, post, by simp [heq], ?_⟩
        intro u hu
        rcases List.mem_cons.mp hu with rfl | hu
        · exact Bool.eq_false_iff.mpr hb
        · exact hpre u hu

/-! ### Concrete page environments used to instantiate the theorems -/

/-- Page exposing no field and no control at all. -/
def pageEmpty : PageStep :=
  { hasResumeUpload := false, hasCoverLetterUpload := false, hasNextButton := false,
    hasReviewButton := false, hasSubmitButton := false, confirmationAppears := false,
    buttons := [] }

/-- Page exposing only the Submit control, with the confirmation indicator
appearing after the click. -/
def pageSubmit : PageStep :=
  { hasResumeUpload := false, hasCoverLetterUpload := false, hasNextButton := false,
    hasReviewButton := false, hasSubmitButton := true, confirmationAppears := true,
    buttons := [] }

/-! ### Claim theorems: Form Navigator -/

/-- C1: for every sequence of page states the session can present, the
stepping loop terminates: the visited step counters are exactly
`1, 2, ..., k` for some `k ≤ 10` (each iteration either returns a terminal
outcome or strictly increments the counter), and if the maximum is exhausted
without a Submit click the run returns the abandoned (max-steps-exceeded)
failure outcome, reported as `False` to the caller. -/
theorem form_loop_bounded_and_abandons (env : Nat → PageStep) (cl : Bool) :
    ∃ k, k ≤ maxSteps ∧
      stepNums (handleForm env cl).2 = List.range' 1 k ∧
      (Event.clickSubmit ∉ (handleForm env cl).2 →
        (handleForm env cl).1 = FormOutcome.abandonedMaxSteps ∧
          outcomeToBool (handleForm env cl).1 = false ∧ k = maxSteps) := by
  obtain ⟨k, hk, htr, himp⟩ := runCount_trace env cl maxSteps 1
  refine ⟨k, hk, ?_, ?_⟩
  · show stepNums (runCount env cl 1 maxSteps).2 = List.range' 1 k
    rw [htr, stepNums_blockTrace]
  · intro hns
    obtain ⟨ho, hk2⟩ := himp hns
    refine ⟨ho, ?_, hk2⟩
    show outcomeToBool (runCount env cl 1 maxSteps).1 = false
    rw [ho]
    rfl

/-- Witness for C1: the mock session that never exposes any control runs the
loop to the bound and ends abandoned, reported as failure. -/
theorem form_loop_bounded_and_abandons_witness :
    (handleForm (fun _ => pageEmpty) false).1 = FormOutcome.abandonedMaxSteps ∧
      outcomeToBool (handleForm (fun _ => pageEmpty) false).1 = false := by
  obtain ⟨k, _, _, himp⟩ := form_loop_bounded_and_abandons (fun _ => pageEmpty) false
  have h := himp (by decide)
  exact ⟨h.1, h.2.1⟩

/-- C3: whenever the navigator clicks the Submit control, the run's outcome
is decided by the bounded wait for the success indicator of the page that
exposed Submit — `confirmed` when the indicator appears, `unconfirmed` when
the wait times out — and either way the handler returns `True` (success) to
its caller. -/
theorem submit_click_reports_success (env : Nat → PageStep) (cl : Bool)
    (h : Event.clickSubmit ∈ (handleForm env cl).2) :
    ∃ j, 1 ≤ j ∧ j ≤ maxSteps ∧ findAction (env j) = ActionFound.submit ∧
      (handleForm env cl).1 =
        (if (env j).confirmationAppears then FormOutcome.confirmed
         else FormOutcome.unconfirmed) ∧
      outcomeToBool (handleForm env cl).1 = true := by
  obtain ⟨j, hj1, hj2, hj3, hj4⟩ := runCount_submitLoc env cl maxSteps 1 h
  have hb : maxSteps = 10 := rfl
  refine ⟨j, hj1, by omega, hj3, hj4, ?_⟩
  show outcomeToBool (handleForm env cl).1 = true
  rw [show (handleForm env cl).1 = _ from hj4]
  cases hc : (env j).confirmationAppears <;> simp [hc, outcomeToBool]

/-- Witness for C3: a session exposing Submit with the indicator appearing. -/
theorem submit_click_reports_success_witness :
    Event.clickSubmit ∈ (handleForm (fun _ => pageSubmit) false).2 ∧
      (∃ j, 1 ≤ j ∧ j ≤ maxSteps ∧
        findAction ((fun _ => pageSubmit) j) = ActionFound.submit ∧
        (handleForm (fun _ => pageSubmit) false).1 =
          (if ((fun _ => pageSubmit) j).confirmationAppears then FormOutcome.confirmed
           else FormOutcome.unconfirmed) ∧
        outcomeToBool (handleForm (fun _ => pageSubmit) false).1 = true) :=
  ⟨by decide, submit_click_reports_success (fun _ => pageSubmit) false (by decide)⟩

/-- C4: the run's trace is the concatenation of per-iteration blocks for the
strictly increasing step counters `1..k`; inside every block the events are
the step log and reading simulation, then all field-filling events, then the
(at most one) action-control click — so every fill attempt of a step
precedes that step's click, no form is submitted in a step whose visible
fields were not first run through the fill routines, and no step counter is
ever revisited. -/
theorem fills_precede_clicks_forward_only (env : Nat → PageStep) (cl : Bool) :
    ∃ k, k ≤ maxSteps ∧
      (handleForm env cl).2 = blockTrace env cl (List.range' 1 k) ∧
      stepNums (handleForm env cl).2 = List.range' 1 k ∧
      (∀ (s : Nat) (p : PageStep), iterTrace s cl p =
        ([Event.stepStart s, Event.readPage] ++ fillEvents p cl) ++ actionEvents p) ∧
      (∀ p : PageStep, ∀ e ∈ fillEvents p cl, isFillEvent e = true) ∧
      (∀ p : PageStep, ∀ e ∈ actionEvents p, isClickEvent e = true) := by
  obtain ⟨k, hk, htr, _⟩ := runCount_trace env cl maxSteps 1
  refine ⟨k, hk, htr, ?_, fun s p => rfl, fun p => mem_fillEvents_isFill p cl,
    fun p => mem_actionEvents_isClick p⟩
  show stepNums (runCount env cl 1 maxSteps).2 = List.range' 1 k
  rw [htr, stepNums_blockTrace]

/-- Witness for C4, instantiated at the control-free mock session. -/
theorem fills_precede_clicks_forward_only_witness :
    isFillEvent Event.fillContactInfo = true ∧ isClickEvent Event.clickNext = true := by
  obtain ⟨k, _, _, _, _, hfill, hclick⟩ :=
    fills_precede_clicks_forward_only (fun _ => pageEmpty) false
  refine ⟨hfill pageEmpty Event.fillContactInfo (by decide), ?_⟩
  exact hclick
    { hasResumeUpload := false, hasCoverLetterUpload := false, hasNextButton := true,
      hasReviewButton := false, hasSubmitButton := false, confirmationAppears := false,
      buttons := [] }
    Event.clickNext (by decide)

/-- C6: the action-control search of one iteration follows the fixed
priority order Next, then Review, then Submit, then the first button whose
lowercased visible text contains one of the vocabulary words; only that
first match is clicked (at most one click per iteration), and when nothing
actionable is found no click happens and the loop still advances to the next
step counter instead of repeating the step forever. -/
theorem action_priority_and_degraded_progress :
    (∀ p : PageStep, p.hasNextButton = true → findAction p = ActionFound.next) ∧
    (∀ p : PageStep, p.hasNextButton = false → p.hasReviewButton = true →
      findAction p = ActionFound.review) ∧
    (∀ p : PageStep, p.hasNextButton = false → p.hasReviewButton = false →
      p.hasSubmitButton = true → findAction p = ActionFound.submit) ∧
    (∀ (p : PageStep) (t : String), findAction p = ActionFound.fallback t →
      vocabMatch t = true ∧
        ∃ pre post, p.buttons = pre ++ t :: post ∧ ∀ u ∈ pre, vocabMatch u = false) ∧
    (∀ p : PageStep, (actionEvents p).length ≤ 1) ∧
    (∀ p : PageStep, findAction p = ActionFound.nothing → actionEvents p = []) ∧
    (∀ (env : Nat → PageStep) (cl : Bool) (s fuel : Nat),
      findAction (env s) = ActionFound.nothing →
      (runCount env cl s (fuel + 1)).1 = (runCount env cl (s + 1) fuel).1) := by
  refine ⟨?_, ?_, ?_, ?_, ?_, ?_, ?_⟩
  · intro p h
    simp [findAction, h]
  · intro p h1 h2
    simp [findAction, h1, h2]
  · intro p h1 h2 h3
    simp [findAction, h1, h2, h3]
  · intro p t h
    by_cases h1 : p.hasNextButton
    · simp [findAction, h1] at h
    · by_cases h2 : p.hasReviewButton
      · simp [findAction, h1, h2] at h
      · by_cases h3 : p.hasSubmitButton
        · simp [findAction, h1, h2, h3] at h
        · rw [findAction, if_neg (by simp [h1]), if_neg (by simp [h2]),
            if_neg (by simp [h3])] at h
          cases hf : p.buttons.find? vocabMatch with
          | none => rw [hf] at h; simp at h
          | some u =>
              rw [hf] at h
              obtain rfl : u = t := by injection h
              obtain ⟨hv, pre, post, heq, hpre⟩ := find?_eq_some_split vocabMatch p.buttons u hf
              exact ⟨hv, pre, post, heq, hpre⟩
  · intro p
    unfold actionEvents
    cases findAction p <;> simp
  · intro p h
    simp [actionEvents, h]
  · intro env cl s fuel h
    have hne : ¬(findAction (env s) = ActionFound.submit) := by
      rw [h]; intro hc; cases hc
    simp [runCount, hne]

/-- Witness for C6: a page with only the Submit selector resolves to the
Submit action, and a page with no controls produces no click. -/
theorem action_priority_and_degraded_progress_witness :
    findAction pageSubmit = ActionFound.submit ∧ actionEvents pageEmpty = [] := by
  have h := action_priority_and_degraded_progress
  exact ⟨h.2.2.1 pageSubmit rfl rfl rfl, h.2.2.2.2.2.1 pageEmpty (by decide)⟩

/-! ### Claim theorems: already-applied short circuit and orchestrator -/

/-- C5: when the job page shows the "already applied" control,
`_apply_linkedin` returns success immediately after login, navigation and
reading — before the apply click — so no form handler event (and hence no
field classification or form filling) ever runs. -/
theorem already_applied_short_circuit (env : LinkedInEnv) (cl : Bool)
    (h : env.appliedButtonPresent = true) :
    applyLinkedIn env cl =
      (LinkedInOutcome.alreadyApplied,
        [LEvent.login, LEvent.navigateToJob, LEvent.readJobDescription]) ∧
      linkedinToBool (applyLinkedIn env cl).1 = true ∧
      (∀ e ∈ (applyLinkedIn env cl).2, isFormEvent e = false) := by
  have heq : applyLinkedIn env cl =
      (LinkedInOutcome.alreadyApplied,
        [LEvent.login, LEvent.navigateToJob, LEvent.readJobDescription]) := by
    simp [applyLinkedIn, h]
  refine ⟨heq, ?_, ?_⟩
  · rw [heq]
    rfl
  · rw [heq]
    decide

/-- Witness for C5: a session that shows the Applied control. -/
theorem already_applied_short_circuit_witness :
    applyLinkedIn ⟨true, false, false, fun _ => pageEmpty⟩ false =
      (LinkedInOutcome.alreadyApplied,
        [LEvent.login, LEvent.navigateToJob, LEvent.readJobDescription]) ∧
      linkedinToBool (applyLinkedIn ⟨true, false, false, fun _ => pageEmpty⟩ false).1 = true ∧
      (∀ e ∈ (applyLinkedIn ⟨true, false, false, fun _ => pageEmpty⟩ false).2,
        isFormEvent e = false) :=
  already_applied_short_circuit ⟨true, false, false, fun _ => pageEmpty⟩ false rfl

/-- Helper: the tail of a cons-append is a suffix. -/
theorem suffix_cons_append (x : AEvent) (l t : List AEvent) : t <:+ x :: (l ++ t) :=
  ⟨x :: l, rfl⟩

/-- C2: once the browser session is open, any exception raised by the
site-specific application call is caught by `apply`'s `except` clause and
reported as failure (never propagated), and on every path that opened the
session the trace ends with the final randomized delay followed by
`driver.quit()` — including the exception path. -/
theorem apply_catches_and_releases_session :
    (∀ (cfg : ApplyConfig) (args : ApplyArgs) (job : Job) (siteB : SiteBehavior)
        (e : PyErr), applyPreconds args job → job.source = "LinkedIn" →
        siteB.result = Except.error e →
        (applyJob cfg args job siteB).1 = false ∧
          (applyJob cfg args job siteB).2 =
            AEvent.setupDriver :: (siteB.events.map AEvent.siteEvent ++
              [AEvent.exceptionCaught, AEvent.finalDelay, AEvent.quitDriver])) ∧
    (∀ (cfg : ApplyConfig) (args : ApplyArgs) (job : Job) (siteB : SiteBehavior),
      AEvent.setupDriver ∈ (applyJob cfg args job siteB).2 →
      [AEvent.finalDelay, AEvent.quitDriver] <:+ (applyJob cfg args job siteB).2) := by
  constructor
  · intro cfg args job siteB e hpre hsrc herr
    obtain ⟨h1, h2, h3, h4⟩ := hpre
    constructor
    · simp [applyJob, h1, h2, h3, h4, hsrc, herr]
    · simp [applyJob, h1, h2, h3, h4, hsrc, herr]
  · intro cfg args job siteB hmem
    by_cases h1 : (!args.resumePathGiven || !args.resumeFileExists) = true
    · rw [applyJob, if_pos h1] at hmem
      exact absurd hmem (List.not_mem_nil _)
    · by_cases h2 : job.url = ""
      · rw [applyJob, if_neg h1, if_pos h2] at hmem
        exact absurd hmem (List.not_mem_nil _)
      · by_cases h3 : (!job.sponsorsH1b) = true
        · rw [applyJob, if_neg h1, if_neg h2, if_pos h3] at hmem
          exact absurd hmem (List.not_mem_nil _)
        · rw [applyJob, if_neg h1, if_neg h2, if_neg h3]
          exact suffix_cons_append _ _ _

/-- Witness for C2: a job with preconditions met whose site routine raises. -/
theorem apply_catches_and_releases_session_witness :
    (applyJob ⟨0⟩ ⟨true, true, false, false⟩ ⟨"https://jobs.example/1", "LinkedIn", true, ""⟩
        ⟨[], Except.error (PyErr.other "boom")⟩).1 = false ∧
      [AEvent.finalDelay, AEvent.quitDriver] <:+
        (applyJob ⟨0⟩ ⟨true, true, false, false⟩
          ⟨"https://jobs.example/1", "LinkedIn", true, ""⟩
          ⟨[], Except.error (PyErr.other "boom")⟩).2 := by
  have h := apply_catches_and_releases_session
  refine ⟨(h.1 ⟨0⟩ ⟨true, true, false, false⟩ ⟨"https://jobs.example/1", "LinkedIn", true, ""⟩
      ⟨[], Except.error (PyErr.other "boom")⟩ (PyErr.other "boom")
      ⟨rfl, rfl, by decide, rfl⟩ rfl rfl).1, ?_⟩
  exact h.2 ⟨0⟩ ⟨true, true, false, false⟩ ⟨"https://jobs.example/1", "LinkedIn", true, ""⟩
    ⟨[], Except.error (PyErr.other "boom")⟩ (by decide)

/-- C7: for a job from Indeed or ZipRecruiter that passes the orchestrator's
preconditions, the site-specific routine is a stub returning `True` without
any browser or form interaction, so `apply` reports success, records the
application, and schedules a follow-up when configured — though no form was
ever filled or submitted (the trace holds no site event at all). -/
theorem stub_sites_report_unearned_success (cfg : ApplyConfig) (args : ApplyArgs)
    (job : Job) (siteB : SiteBehavior) (hpre : applyPreconds args job)
    (hsrc : job.source = "Indeed" ∨ job.source = "ZipRecruiter") :
    (applyJob cfg args job siteB).1 = true ∧
      (applyJob cfg args job siteB).2 =
        AEvent.setupDriver :: AEvent.recordApplication ::
          ((if 0 < cfg.followUpDays then [AEvent.scheduleFollowUp] else []) ++
            (if job.hiringManagerEmail = "" then []
             else if effectiveCoverLetter args then [AEvent.sendDirectEmail] else []) ++
            [AEvent.finalDelay, AEvent.quitDriver]) ∧
      (∀ e ∈ (applyJob cfg args job siteB).2, isSiteEvent e = false) := by
  obtain ⟨h1, h2, h3, h4⟩ := hpre
  have hne : ¬(job.source = "LinkedIn") := by
    rcases hsrc with h | h <;> rw [h] <;> decide
  have heq : (applyJob cfg args job siteB).2 =
      AEvent.setupDriver :: AEvent.recordApplication ::
        ((if 0 < cfg.followUpDays then [AEvent.scheduleFollowUp] else []) ++
          (if job.hiringManagerEmail = "" then []
           else if effectiveCoverLetter args then [AEvent.sendDirectEmail] else []) ++
          [AEvent.finalDelay, AEvent.quitDriver]) := by
    rcases hsrc with h | h
    · simp [applyJob, h1, h2, h3, h4, h, hne]
    · simp [applyJob, h1, h2, h3, h4, h, hne]
  refine ⟨?_, heq, ?_⟩
  · rcases hsrc with h | h
    · simp [applyJob, h1, h2, h3, h4, h, hne]
    · simp [applyJob, h1, h2, h3, h4, h, hne]
  · intro e he
    rw [heq] at he
    rcases List.mem_cons.mp he with rfl | he
    · rfl
    rcases List.mem_cons.mp he with rfl | he
    · rfl
    rcases List.mem_append.mp he with he | he
    · rcases List.mem_append.mp he with he | he
      · split at he
        · rcases List.mem_cons.mp he with rfl | he
          · rfl
          · exact absurd he (List.not_mem_nil _)
        · exact absurd he (List.not_mem_nil _)
      · split at he
        · exact absurd he (List.not_mem_nil _)
        · split at he
          · rcases List.mem_cons.mp he with rfl | he
            · rfl
            · exact absurd he (List.not_mem_nil _)
          · exact absurd he (List.not_mem_nil _)
    · rcases List.mem_cons.mp he with rfl | he
      · rfl
      rcases List.mem_cons.mp he with rfl | he
      · rfl
      · exact absurd he (List.not_mem_nil _)

/-- Witness for C7: an Indeed job with follow-ups configured. -/
theorem stub_sites_report_unearned_success_witness :
    (applyJob ⟨7⟩ ⟨true, true, false, false⟩ ⟨"https://jobs.example/2", "Indeed", true, ""⟩
        ⟨[], Except.ok false⟩).1 = true ∧
      AEvent.recordApplication ∈
        (applyJob ⟨7⟩ ⟨true, true, false, false⟩
          ⟨"https://jobs.example/2", "Indeed", true, ""⟩ ⟨[], Except.ok false⟩).2 ∧
      AEvent.scheduleFollowUp ∈
        (applyJob ⟨7⟩ ⟨true, true, false, false⟩
          ⟨"https://jobs.example/2", "Indeed", true, ""⟩ ⟨[], Except.ok false⟩).2 := by
  have h := stub_sites_report_unearned_success ⟨7⟩ ⟨true, true, false, false⟩
    ⟨"https://jobs.example/2", "Indeed", true, ""⟩ ⟨[], Except.ok false⟩
    ⟨rfl, rfl, by decide, rfl⟩ (Or.inl rfl)
  refine ⟨h.1, ?_, ?_⟩
  · rw [h.2.1]
    decide
  · rw [h.2.1]
    decide

/-! ### Claim theorems: typing fallback (C8) -/

/-- Element that raises `StaleElementReferenceException` both on the typed
path and on the fallback `element.clear()` — the behaviour of a genuinely
stale (detached) element, whose every operation raises. -/
def staleField : FieldBehavior :=
  { clickErr := none, charErr := some PyErr.stale, clearErr := some PyErr.stale,
    setErr := none }

/-- Element whose focusing click raises `ElementNotInteractableException`
but which accepts the fallback clear-and-set. -/
def notInteractableField : FieldBehavior :=
  { clickErr := some PyErr.notInteractable, charErr := none, clearErr := none,
    setErr := none }

/-- Typing entropy stream with no typos. -/
def rngNoTypos : TypingRng :=
  { mistakeAt := fun _ => false, offsetAt := fun _ => 0 }

/-- Counterexample to C8 as stated: on a stale element (whose `clear()` in
the fallback also raises, as every operation of a stale element does), the
typed path raises the stale error, yet the call does not complete via the
fallback — the exception escapes `human_like_typing`, because the fallback
`element.clear(); element.send_keys(text)` is outside the `except` clause. -/
theorem typing_fallback_can_propagate :
    firstTypedErr staleField ['h', 'i'] = some PyErr.stale ∧
      human_like_typing staleField rngNoTypos ['h', 'i'] = Except.error PyErr.stale :=
  ⟨rfl, rfl⟩

/-- C8 (amended): if the typed path raises a not-interactable or
stale-element error, the simulator catches it, logs a warning, and — provided
the fallback `clear()` and `send_keys(text)` themselves succeed — the call
completes without exception with the field set to the full text in one
atomic operation. -/
theorem typing_fallback_completes_when_fallback_ok (b : FieldBehavior)
    (rng : TypingRng) (text : List Char) (e : PyErr)
    (h1 : firstTypedErr b text = some e)
    (h2 : e = PyErr.notInteractable ∨ e = PyErr.stale)
    (h3 : b.clearErr = none) (h4 : b.setErr = none) :
    human_like_typing b rng text = Except.ok (text, true) := by
  rcases h2 with rfl | rfl <;> simp [human_like_typing, h1, h3, h4]

/-- Witness for the amended C8: a not-interactable element with a working
fallback. -/
theorem typing_fallback_completes_when_fallback_ok_witness :
    human_like_typing notInteractableField rngNoTypos ['a', 'b'] =
      Except.ok (['a', 'b'], true) :=
  typing_fallback_completes_when_fallback_ok notInteractableField rngNoTypos
    ['a', 'b'] PyErr.notInteractable rfl (Or.inl rfl) rfl rfl

/-! ### Claim theorems: scrolling (C9) -/

theorem subScrollsAux_zero (rng : Nat → Nat) (fuel i : Nat) :
    subScrollsAux rng fuel i 0 = [] := by
  cases fuel <;> simp [subScrollsAux]

theorem dropLast_cons_ne_nil {α : Type} (a : α) {l : List α} (h : l ≠ []) :
    (a :: l).dropLast = a :: l.dropLast := by
  cases l with
  | nil => exact absurd rfl h
  | cons b t => rfl

theorem subScrollsAux_spec (rng : Nat → Nat) :
    ∀ fuel i remaining, remaining ≤ fuel →
      (subScrollsAux rng fuel i remaining).sum = remaining ∧
      (∀ x ∈ subScrollsAux rng fuel i remaining, 1 ≤ x ∧ x ≤ 200) ∧
      (∀ x ∈ (subScrollsAux rng fuel i remaining).dropLast, 50 ≤ x) ∧
      (subScrollsAux rng fuel i remaining).length ≤ remaining := by
  intro fuel
  induction fuel with
  | zero =>
      intro i r hr
      obtain rfl : r = 0 := Nat.le_zero.mp hr
      simp [subScrollsAux]
  | succ fuel ih =>
      intro i r hr
      by_cases hr0 : r = 0
      · subst hr0
        simp [subScrollsAux]
      · have h50 : 50 ≤ randint 50 200 (rng i) := randint_ge 50 200 (rng i)
        have h200 : randint 50 200 (rng i) ≤ 200 := randint_le 50 200 (rng i) (by omega)
        have hunf : subScrollsAux rng (fuel + 1) i r =
            min r (randint 50 200 (rng i)) ::
              subScrollsAux rng fuel (i + 1) (r - min r (randint 50 200 (rng i))) := by
          simp [subScrollsAux, hr0]
        obtain ⟨hsum, hmem, hdrop, hlen⟩ :=
          ih (i + 1) (r - min r (randint 50 200 (rng i))) (by omega)
        rw [hunf]
        refine ⟨?_, ?_, ?_, ?_⟩
        · rw [List.sum_cons, hsum]
          omega
        · intro x hx
          rcases List.mem_cons.mp hx with rfl | hx
          · omega
          · exact hmem x hx
        · by_cases htail : subScrollsAux rng fuel (i + 1)
              (r - min r (randint 50 200 (rng i))) = []
          · rw [htail]
            intro x hx
            exact absurd hx (List.not_mem_nil x)
          · rw [dropLast_cons_ne_nil _ htail]
            intro x hx
            rcases List.mem_cons.mp hx with rfl | hx
            · have hrs : r - min r (randint 50 200 (rng i)) ≠ 0 := by
                intro hz
                exact htail (hz ▸ subScrollsAux_zero rng fuel (i + 1))
              omega
            · exact hdrop x hx
        · rw [List.length_cons]
          omega

/-- Counterexample to C9 as stated: with default amount entropy 30 and
sub-scroll entropy 50, `scroll_page` scrolls a default total of 130 pixels in
sub-scrolls of 100 and 30 pixels — the final sub-scroll is 30 px, outside the
claimed [50, 200] range (the code takes `min(remaining, randint(50, 200))`,
so a last sub-scroll below 50 px occurs whenever the remainder drops below
50). -/
theorem scroll_substep_below_claimed_range :
    scroll_page (fun _ => 50) 30 ScrollDir.down none = [(100 : Int), 30] ∧
      (30 : Int) ∈ scroll_page (fun _ => 50) 30 ScrollDir.down none ∧
      ¬(50 ≤ (30 : Int)) := by
  refine ⟨rfl, by decide, by decide⟩

theorem sum_map_signDelta (dir : ScrollDir) (l : List Nat) :
    (l.map (signDelta dir)).sum = signDelta dir l.sum := by
  induction l with
  | nil => cases dir <;> rfl
  | cons a t ih =>
      rw [List.map_cons, List.sum_cons, List.sum_cons, ih]
      cases dir <;> simp [signDelta, Int.ofNat_add, neg_add] <;> ring

/-- C9 (amended): `scroll_page` scrolls the viewport by exactly the
requested total number of pixels (default: a random value in [100, 800]),
as a terminating sequence of at most `amount` sub-scrolls; every sub-scroll
except possibly the last lies in [50, 200] pixels, while the last equals the
remaining amount and can be as small as 1 pixel (each sub-scroll is
`min(remaining, randint(50, 200))`). -/
theorem scroll_exact_total_bounded_substeps (rng : Nat → Nat) (amtR : Nat)
    (dir : ScrollDir) (amount : Option Nat) :
    (subScrolls rng (scrollAmount amtR amount)).sum = scrollAmount amtR amount ∧
      (∀ x ∈ subScrolls rng (scrollAmount amtR amount), 1 ≤ x ∧ x ≤ 200) ∧
      (∀ x ∈ (subScrolls rng (scrollAmount amtR amount)).dropLast, 50 ≤ x) ∧
      (subScrolls rng (scrollAmount amtR amount)).length ≤ scrollAmount amtR amount ∧
      (scroll_page rng amtR dir amount).sum =
        (match dir with
         | ScrollDir.down => (scrollAmount amtR amount : Int)
         | ScrollDir.up => -(scrollAmount amtR amount : Int)) ∧
      (amount = none →
        100 ≤ scrollAmount amtR amount ∧ scrollAmount amtR amount ≤ 800) := by
  obtain ⟨hsum, hmem, hdrop, hlen⟩ :=
    subScrollsAux_spec rng (scrollAmount amtR amount) 0 (scrollAmount amtR amount)
      (Nat.le_refl _)
  have hsum2 : (subScrolls rng (scrollAmount amtR amount)).sum = scrollAmount amtR amount :=
    hsum
  refine ⟨hsum, hmem, hdrop, hlen, ?_, ?_⟩
  · have hs : (scroll_page rng amtR dir amount).sum =
        signDelta dir (scrollAmount amtR amount) := by
      rw [scroll_page, sum_map_signDelta, hsum2]
    cases dir
    · rw [hs]
      rfl
    · rw [hs]
      rfl
  · intro hnone
    subst hnone
    exact ⟨randint_ge 100 800 amtR, randint_le 100 800 amtR (by omega)⟩

/-- Witness for the amended C9: default amount with entropy 0 gives a total
of 100 pixels. -/
theorem scroll_exact_total_bounded_substeps_witness :
    (subScrolls (fun _ => 0) (scrollAmount 0 none)).sum = scrollAmount 0 none ∧
      100 ≤ scrollAmount 0 none ∧ scrollAmount 0 none ≤ 800 := by
  have h := scroll_exact_total_bounded_substeps (fun _ => 0) 0 ScrollDir.down none
  exact ⟨h.1, h.2.2.2.2.2 rfl⟩

/-! ### Claim theorems: years-of-experience fill (C10) -/

/-- C10: every text input whose lowercased placeholder or label contains
"years" or "experience" is filled with `str(random.randint(2, 5))` — an
integer between 2 and 5 inclusive for every entropy value, and genuinely
sampled (different entropy yields different answers), not a constant. -/
theorem years_experience_randomized_range :
    (∀ (ui : UserInfo) (r : Nat) (placeholder label : String),
      (strContainsLower placeholder "years" || strContainsLower label "years" ||
        strContainsLower placeholder "experience" ||
        strContainsLower label "experience") = true →
      classifyTextInput ui r placeholder label =
        TextFillDecision.years (randint 2 5 r) ∧
        2 ≤ randint 2 5 r ∧ randint 2 5 r ≤ 5) ∧
    randint 2 5 0 ≠ randint 2 5 1 := by
  constructor
  · intro ui r ph lb h
    refine ⟨by simp [classifyTextInput, h], randint_ge 2 5 r, randint_le 2 5 r (by omega)⟩
  · decide

/-- Witness for C10: the field labeled "Years of experience". -/
theorem years_experience_randomized_range_witness :
    classifyTextInput ⟨"", "", ""⟩ 7 "" "Years of experience" =
      TextFillDecision.years (randint 2 5 7) ∧
      2 ≤ randint 2 5 7 ∧ randint 2 5 7 ≤ 5 :=
  years_experience_randomized_range.1 ⟨"", "", ""⟩ 7 "" "Years of experience" (by decide)

end AIBot
